import Mathlib

/-!
Verification of the APE metrics dashboard (`app.py`) and the offline
PDF-to-PNG converter (`convert_pdfs_to_pngs.py`).

The Python code is shallowly embedded: JSON entries become a structure with
optional fields (`entry.get(k, default)` becomes `Option.getD`), pandas
dataframes become lists of row structures, numeric statistics are modelled
as rationals (`Option ℚ`, `none` standing for a missing value / NaN), and
filesystem state is passed explicitly as the list of existing paths.
-/

namespace CVDash

/-- Case-sensitive literal prefix match on character lists: does `pat`
match the beginning of the text?  Used to model Python's substring test. -/
def litAt : List Char → List Char → Bool
  | [], _ => true
  | _ :: _, [] => false
  | p :: ps, c :: cs => p == c && litAt ps cs

/-- Case-sensitive literal substring search: does `pat` occur contiguously
anywhere in the text?  Models Python's `sub in s`. -/
def litSub (pat : List Char) : List Char → Bool
  | [] => pat.isEmpty
  | c :: cs => litAt pat (c :: cs) || litSub pat cs

/-- Python's `sub in s` substring containment on strings. -/
def containsSubstr (s sub : String) : Bool :=
  litSub sub.toList s.toList

/-- Python's `s.split(sep)` for a one-character separator, on character
lists.  `split` of the empty string is `[""]`, and separators at the ends
produce empty segments, exactly as in Python. -/
def splitChars (sep : Char) : List Char → List (List Char)
  | [] => [[]]
  | c :: cs =>
    let r := splitChars sep cs
    if c == sep then [] :: r
    else (c :: r.headD []) :: r.tail

/-- Python's `s.split('/')`. -/
def splitSlash (s : String) : List String :=
  (splitChars '/' s.toList).map (fun cs => { data := cs })

/-- `os.path.basename`: the component after the last `/`. -/
def basename (p : String) : String :=
  (splitSlash p).getLastD ""

/-- One element of the `ape_results.json` array.  Each field is optional:
`entry.get("k", default)` in the source yields the default when the key is
absent.  Numeric statistics are modelled as rationals. -/
structure Entry where
  algorithm : Option String
  algorithm_relative_folder : Option String
  folder : Option String
  plot_path : Option String
  rmse : Option ℚ
  mean : Option ℚ
  median : Option ℚ
  std : Option ℚ
  min : Option ℚ
  max : Option ℚ
  deriving DecidableEq, Repr

/-- One record of the extracted table (`records.append({...})` in
`app.py`, lines 30-42), before the Subtag categorical conversion. -/
structure MetricRecord where
  Algorithm : String
  Tag : String
  Subtag : String
  Video : String
  RMSE : Option ℚ
  Mean : Option ℚ
  Median : Option ℚ
  Std : Option ℚ
  Min : Option ℚ
  Max : Option ℚ
  PlotPDF : String
  deriving DecidableEq, Repr

/-- The body of the extraction loop of `app.py` (lines 16-42) for a single
entry: skip ground-truth algorithms, skip relative paths with fewer than
two `/`-separated segments, otherwise build one record.  The function is
total: no entry produces an error. -/
def extractRecord (entry : Entry) : Option MetricRecord :=
  let algo := entry.algorithm.getD ""
  if containsSubstr algo "groundTruth" then none
  else
    let rel_path := entry.algorithm_relative_folder.getD ""
    let folder := entry.folder.getD ""
    let plot_path := basename (entry.plot_path.getD "")
    match splitSlash rel_path with
    | tag1 :: tag2 :: _ =>
        some { Algorithm := algo, Tag := tag1, Subtag := tag2, Video := folder,
               RMSE := entry.rmse, Mean := entry.mean, Median := entry.median,
               Std := entry.std, Min := entry.min, Max := entry.max,
               PlotPDF := plot_path }
    | _ => none

/-- The whole extraction loop over the parsed JSON array. -/
def extractRecords (data : List Entry) : List MetricRecord :=
  data.filterMap extractRecord

/-- A ground-truth entry, used to exercise the skip branch. -/
def entGT : Entry :=
  { algorithm := some "NWC_groundTruth", algorithm_relative_folder := some "NWC/mp4_low/x",
    folder := some "vid1", plot_path := some "plots/a.pdf",
    rmse := some (3/2), mean := none, median := none, std := none, min := none, max := none }

/-- An entry whose relative folder has a single path segment. -/
def entShort : Entry :=
  { algorithm := some "ALG1", algorithm_relative_folder := some "NWC",
    folder := some "vid1", plot_path := some "plots/a.pdf",
    rmse := some (3/2), mean := none, median := none, std := none, min := none, max := none }

/-- A well-formed entry that yields one record. -/
def entGood : Entry :=
  { algorithm := some "ALG1", algorithm_relative_folder := some "NWC/mp4_low/x",
    folder := some "vid1", plot_path := some "plots/a.pdf",
    rmse := some (3/2), mean := none, median := none, std := none, min := none, max := none }

/-- C1.  Record extraction: an entry whose algorithm contains "groundTruth"
produces no record; an entry whose relative folder splits into fewer than
two segments produces no record; otherwise exactly one record is produced
with Tag/Subtag the first two path segments, Video the folder field, plot
reference the basename of the plot path, and each of the six statistics
taken verbatim from the entry — in particular a missing statistic stays an
explicit "no value" (`none`), never zero.  `extractRecord` is a total
function, so no entry can raise an error. -/
theorem extraction_spec (entry : Entry) :
    (containsSubstr (entry.algorithm.getD "") "groundTruth" = true →
      extractRecord entry = none)
  ∧ ((splitSlash (entry.algorithm_relative_folder.getD "")).length < 2 →
      extractRecord entry = none)
  ∧ (containsSubstr (entry.algorithm.getD "") "groundTruth" = false →
      ∀ tag1 tag2 rest,
        splitSlash (entry.algorithm_relative_folder.getD "") = tag1 :: tag2 :: rest →
        extractRecord entry = some
          { Algorithm := entry.algorithm.getD "", Tag := tag1, Subtag := tag2,
            Video := entry.folder.getD "",
            RMSE := entry.rmse, Mean := entry.mean, Median := entry.median,
            Std := entry.std, Min := entry.min, Max := entry.max,
            PlotPDF := basename (entry.plot_path.getD "") })
  ∧ (∀ r, extractRecord entry = some r →
      (entry.rmse = none → r.RMSE = none) ∧ (entry.mean = none → r.Mean = none) ∧
      (entry.median = none → r.Median = none) ∧ (entry.std = none → r.Std = none) ∧
      (entry.min = none → r.Min = none) ∧ (entry.max = none → r.Max = none)) := by
  refine ⟨fun h => by simp [extractRecord, h], ?_, ?_, ?_⟩
  · intro h
    by_cases hg : containsSubstr (entry.algorithm.getD "") "groundTruth" = true
    · simp [extractRecord, hg]
    · rcases e : splitSlash (entry.algorithm_relative_folder.getD "") with
        _ | ⟨t1, _ | ⟨t2, rest⟩⟩
      · simp [extractRecord, hg, e]
      · simp [extractRecord, hg, e]
      · rw [e] at h
        simp at h
        omega
  · intro hg tag1 tag2 rest he
    simp [extractRecord, hg, he]
  · intro r hr
    by_cases hg : containsSubstr (entry.algorithm.getD "") "groundTruth" = true
    · simp [extractRecord, hg] at hr
    · rcases e : splitSlash (entry.algorithm_relative_folder.getD "") with
        _ | ⟨t1, _ | ⟨t2, rest⟩⟩
      · simp [extractRecord, hg, e] at hr
      · simp [extractRecord, hg, e] at hr
      · simp [extractRecord, hg, e] at hr
        subst hr
        simp

/-- Witness for C1: the ground-truth entry and the short-path entry are
dropped, and the well-formed entry yields exactly its record. -/
theorem extraction_spec_witness :
    extractRecord entGT = none
  ∧ extractRecord entShort = none
  ∧ extractRecord entGood = some
      { Algorithm := "ALG1", Tag := "NWC", Subtag := "mp4_low", Video := "vid1",
        RMSE := some (3/2), Mean := none, Median := none,
        Std := none, Min := none, Max := none, PlotPDF := "a.pdf" } :=
  ⟨(extraction_spec entGT).1 (by decide),
   (extraction_spec entShort).2.1 (by decide),
   (extraction_spec entGood).2.2.1 (by decide) "NWC" "mp4_low" ["x"] (by decide)⟩

/-- The fixed subtag order of `app.py` line 48. -/
def subtag_order : List String :=
  ["mp4_verylow", "mp4_low", "mp4_mid", "mp4_medium", "mp4_high"]

/-- A row of the dataframe `df` after line 49 of `app.py`: the Subtag
column has been converted to an ordered Categorical over `subtag_order`,
so a subtag outside that list has become NaN (modelled as `none`). -/
structure Row where
  Algorithm : String
  Tag : String
  Subtag : Option String
  Video : String
  RMSE : Option ℚ
  Mean : Option ℚ
  Median : Option ℚ
  Std : Option ℚ
  Min : Option ℚ
  Max : Option ℚ
  PlotPDF : String
  deriving DecidableEq, Repr

/-- The Categorical conversion of line 49: a Subtag value outside the five
categories becomes NaN (`none`). -/
def toRow (r : MetricRecord) : Row :=
  { Algorithm := r.Algorithm, Tag := r.Tag,
    Subtag := if subtag_order.contains r.Subtag then some r.Subtag else none,
    Video := r.Video, RMSE := r.RMSE, Mean := r.Mean, Median := r.Median,
    Std := r.Std, Min := r.Min, Max := r.Max, PlotPDF := r.PlotPDF }

/-- The full dataframe build: extraction followed by the Subtag
Categorical conversion. -/
def buildDf (data : List Entry) : List Row :=
  (extractRecords data).map toRow

/-- Match of one regular-expression pattern character against one text
character, under `re.IGNORECASE` (pandas `case=False`): `.` matches any
character except a newline; any other character matches itself up to
case. -/
def charMatches (p c : Char) : Bool :=
  (p == '.' && c != '\x0a') || p.toLower == c.toLower

/-- Does the pattern match a prefix of the text (each pattern character
consuming exactly one text character)? -/
def matchAt : List Char → List Char → Bool
  | [], _ => true
  | _ :: _, [] => false
  | p :: ps, c :: cs => charMatches p c && matchAt ps cs

/-- `re.search`: does the pattern match somewhere in the text? -/
def reSearch (pat : List Char) : List Char → Bool
  | [] => pat.isEmpty
  | c :: cs => matchAt pat (c :: cs) || reSearch pat cs

/-- pandas `Series.str.contains(pat, case=False, regex=True)` for one
string: a case-insensitive regular-expression search.  The model covers
patterns built from literal characters and the `.` wildcard; other regex
metacharacters are outside the model. -/
def str_contains (s pat : String) : Bool :=
  reSearch pat.toList s.toList

/-- Case-insensitive literal substring containment (the reading used by
the specification's words "contains the search string"). -/
def substr_ci (s pat : String) : Bool :=
  litSub (pat.toList.map Char.toLower) (s.toList.map Char.toLower)

/-- The sidebar filter state: selected algorithm (`"All algorithms"` is
the sentinel), selected jobsite tags, selected subtags, and the video
search text. -/
structure FilterSpec where
  algorithm : String
  tags : List String
  subtags : List String
  search : String
  deriving DecidableEq, Repr

/-- Line 65: `df[df["Tag"].isin(selected_tags)]`. -/
def filterTags (rows : List Row) (tags : List String) : List Row :=
  rows.filter (fun r => tags.contains r.Tag)

/-- Lines 67-68: filter by algorithm unless "All algorithms". -/
def filterAlgo (rows : List Row) (algo : String) : List Row :=
  if algo = "All algorithms" then rows
  else rows.filter (fun r => r.Algorithm == algo)

/-- Line 75: `algo_df[algo_df["Subtag"].isin(selected_subtags)]`.  A NaN
subtag is in no list. -/
def filterSubtags (rows : List Row) (subtags : List String) : List Row :=
  rows.filter (fun r =>
    match r.Subtag with
    | some s => subtags.contains s
    | none => false)

/-- Lines 79-80: the video-name search, skipped when the text is empty
(Python truthiness), otherwise `str.contains(search, case=False)`. -/
def filterSearch (rows : List Row) (search : String) : List Row :=
  if search = "" then rows
  else rows.filter (fun r => str_contains r.Video search)

/-- The whole sidebar filter pipeline of lines 61-80, in source order:
tags, then algorithm, then subtags, then search. -/
def filterPipeline (rows : List Row) (fs : FilterSpec) : List Row :=
  filterSearch (filterSubtags (filterAlgo (filterTags rows fs.tags) fs.algorithm) fs.subtags)
    fs.search

/-- The single-pass membership predicate the pipeline implements, with the
search clause as the code has it: a case-insensitive regular-expression
match of the search pattern against the video name. -/
def matchesFilter (fs : FilterSpec) (r : Row) : Bool :=
  fs.tags.contains r.Tag
  && (fs.algorithm == "All algorithms" || r.Algorithm == fs.algorithm)
  && (match r.Subtag with
      | some s => fs.subtags.contains s
      | none => false)
  && (fs.search == "" || str_contains r.Video fs.search)

/-- The membership predicate as the claim words it: the search clause is
case-insensitive literal substring containment. -/
def matchesFilterSubstr (fs : FilterSpec) (r : Row) : Bool :=
  fs.tags.contains r.Tag
  && (fs.algorithm == "All algorithms" || r.Algorithm == fs.algorithm)
  && (match r.Subtag with
      | some s => fs.subtags.contains s
      | none => false)
  && (fs.search == "" || substr_ci r.Video fs.search)

/-- The regex metacharacters of Python's `re` module. -/
def reMeta : List Char :=
  ['.', '^', '$', '*', '+', '?', '\x7b', '\x7d', '[', ']', '\\', '|', '(', ')']

/-- On a pattern without the `.` wildcard, anchored regex matching is
literal case-insensitive matching. -/
theorem matchAt_of_no_dot :
    ∀ ps cs : List Char, (∀ c ∈ ps, c ≠ '.') →
      matchAt ps cs = litAt (ps.map Char.toLower) (cs.map Char.toLower)
  | [], _, _ => by simp [matchAt, litAt]
  | p :: ps, [], h => by simp [matchAt, litAt]
  | p :: ps, c :: cs, h => by
    have hp : (p == '.') = false := by
      simpa using h p (by simp)
    simp only [matchAt, litAt, List.map_cons, charMatches, hp, Bool.false_and,
      Bool.false_or]
    rw [matchAt_of_no_dot ps cs (fun c hc => h c (by simp [hc]))]

/-- On a pattern without the `.` wildcard, regex search is literal
case-insensitive substring containment. -/
theorem reSearch_of_no_dot (ps : List Char) (h : ∀ c ∈ ps, c ≠ '.') :
    ∀ cs : List Char, reSearch ps cs = litSub (ps.map Char.toLower) (cs.map Char.toLower)
  | [] => by cases ps <;> rfl
  | c :: cs => by
    simp only [reSearch, litSub, List.map_cons]
    rw [matchAt_of_no_dot ps (c :: cs) h, reSearch_of_no_dot ps h cs]
    simp

/-- C2 (amended).  The sidebar filter pipeline equals a single filter by
the conjunction of the four conditions, applied in the order tags,
algorithm, subtags, search; the search condition is a case-insensitive
regular-expression match (as pandas `str.contains` performs with its
default `regex=True`), which coincides with the claim's case-insensitive
substring containment whenever the search text has no regex
metacharacter. -/
theorem filter_pipeline_spec (rows : List Row) (fs : FilterSpec) :
    filterPipeline rows fs = rows.filter (matchesFilter fs)
  ∧ ((∀ c ∈ fs.search.toList, c ∉ reMeta) →
      filterPipeline rows fs = rows.filter (matchesFilterSubstr fs)) := by
  have main : filterPipeline rows fs = rows.filter (matchesFilter fs) := by
    unfold filterPipeline filterTags filterAlgo filterSubtags filterSearch
    by_cases hA : fs.algorithm = "All algorithms" <;> by_cases hS : fs.search = "" <;>
      [have hA' : (fs.algorithm == "All algorithms") = true := beq_iff_eq.mpr hA;
       have hA' : (fs.algorithm == "All algorithms") = true := beq_iff_eq.mpr hA;
       have hA' : (fs.algorithm == "All algorithms") = false := beq_eq_false_iff_ne.mpr hA;
       have hA' : (fs.algorithm == "All algorithms") = false := beq_eq_false_iff_ne.mpr hA] <;>
      [have hS' : (fs.search == "") = true := beq_iff_eq.mpr hS;
       have hS' : (fs.search == "") = false := beq_eq_false_iff_ne.mpr hS;
       have hS' : (fs.search == "") = true := beq_iff_eq.mpr hS;
       have hS' : (fs.search == "") = false := beq_eq_false_iff_ne.mpr hS] <;>
      simp only [hA, hS, if_true, if_false, reduceIte, List.filter_filter] <;>
        refine List.filter_congr (fun r _ => ?_) <;>
          simp [matchesFilter, hA', hS', Bool.and_assoc, Bool.and_comm,
            Bool.and_left_comm]
  refine ⟨main, fun hmeta => main.trans (List.filter_congr (fun r _ => ?_))⟩
  have hdot : ∀ c ∈ fs.search.toList, c ≠ '.' := by
    intro c hc he
    exact hmeta c hc (by simp [he, reMeta])
  have : str_contains r.Video fs.search = substr_ci r.Video fs.search := by
    unfold str_contains substr_ci
    exact reSearch_of_no_dot _ hdot _
  simp [matchesFilter, matchesFilterSubstr, this]

/-- A non-ground-truth row whose video name is matched by the regex
`a.c` but does not contain it as a literal substring. -/
def cexRow : Row :=
  { Algorithm := "ALG1", Tag := "T", Subtag := some "mp4_low", Video := "axc",
    RMSE := none, Mean := none, Median := none, Std := none, Min := none,
    Max := none, PlotPDF := "a.pdf" }

/-- A filter whose search text `a.c` is a regex, not a literal. -/
def cexFS : FilterSpec :=
  { algorithm := "All algorithms", tags := ["T"], subtags := ["mp4_low"],
    search := "a.c" }

/-- Counterexample to C2 as stated: with search text `a.c`, the pipeline
keeps the row with video `axc` (the regex `.` matches `x`), so the result
is not the subset of records whose video contains the search string as a
substring. -/
theorem filter_pipeline_cex :
    filterPipeline [cexRow] cexFS ≠ List.filter (matchesFilterSubstr cexFS) [cexRow] := by
  decide

/-- A metacharacter-free search text over the same row. -/
def wFS : FilterSpec :=
  { algorithm := "All algorithms", tags := ["T"], subtags := ["mp4_low"],
    search := "AX" }

/-- Witness for C2 (amended) at a concrete record set and filter. -/
theorem filter_pipeline_spec_witness :
    filterPipeline [cexRow] wFS = List.filter (matchesFilter wFS) [cexRow]
  ∧ filterPipeline [cexRow] wFS = List.filter (matchesFilterSubstr wFS) [cexRow] :=
  ⟨(filter_pipeline_spec [cexRow] wFS).1,
   (filter_pipeline_spec [cexRow] wFS).2 (by decide)⟩

/-- Line 71 of `app.py`: `algo_df["Subtag"].dropna().unique().tolist()` —
the distinct non-NaN subtags of the filtered data, in first-occurrence
order. -/
def availableSubtags (rows : List Row) : List String :=
  (rows.filterMap (fun r => r.Subtag)).dedup

/-- Line 61: the sorted distinct jobsite tags offered by the sidebar
(and selected in full by default). -/
def tag_options (rows : List Row) : List String :=
  List.insertionSort (fun a b => a ≤ b) (rows.map (fun r => r.Tag)).dedup

/-- Lines 65-68 with the default selections: all tags, "All algorithms". -/
def algo_df_full (rows : List Row) : List Row :=
  filterAlgo (filterTags rows (tag_options rows)) "All algorithms"

/-- Lines 58-80 with every widget at its default: all jobsite tags
selected, "All algorithms", all available subtags selected (line 72
defaults to `available_subtags`), and an empty search text. -/
def fullFilter (rows : List Row) : List Row :=
  filterSearch (filterSubtags (algo_df_full rows) (availableSubtags (algo_df_full rows))) ""

/-- C3 (amended).  Filtering with an empty tag set yields an empty result,
whatever the other filter components are; filtering with every widget at
its default (full tag set, "All algorithms", all available subtags, empty
search) yields exactly the rows whose subtag survived the Categorical
conversion of line 49 — in particular the input unchanged whenever every
row's subtag is one of the five recognized values. -/
theorem filter_identity (rows : List Row) (algo srch : String) (subs : List String) :
    filterPipeline rows { algorithm := algo, tags := [], subtags := subs, search := srch } = []
  ∧ fullFilter rows = rows.filter (fun r => r.Subtag.isSome)
  ∧ ((∀ r ∈ rows, r.Subtag.isSome = true) → fullFilter rows = rows) := by
  have hempty :
      filterPipeline rows { algorithm := algo, tags := [], subtags := subs, search := srch }
        = [] := by
    simp [filterPipeline, filterTags, filterAlgo, filterSubtags, filterSearch]
  have hfull : fullFilter rows = rows.filter (fun r => r.Subtag.isSome) := by
    have h1 : filterTags rows (tag_options rows) = rows := by
      refine List.filter_eq_self.mpr (fun r hr => ?_)
      have : r.Tag ∈ tag_options rows := by
        rw [tag_options, List.mem_insertionSort]
        exact List.mem_dedup.mpr (List.mem_map_of_mem _ hr)
      exact List.elem_eq_true_of_mem this
    have hdf : algo_df_full rows = rows := by
      unfold algo_df_full
      rw [h1]
      exact if_pos rfl
    unfold fullFilter filterSearch
    rw [hdf, if_pos rfl]
    unfold filterSubtags
    refine List.filter_congr (fun r hr => ?_)
    rcases e : r.Subtag with _ | s
    · simp [e]
    · have hs : s ∈ availableSubtags rows :=
        List.mem_dedup.mpr (List.mem_filterMap.mpr ⟨r, hr, e⟩)
      simp [e]
      exact hs
  exact ⟨hempty, hfull, fun hall =>
    hfull.trans (List.filter_eq_self.mpr hall)⟩

/-- A row whose subtag was not one of the five categories, hence became
NaN in the Categorical conversion. -/
def cexRow3 : Row :=
  { Algorithm := "ALG1", Tag := "T", Subtag := none, Video := "v",
    RMSE := none, Mean := none, Median := none, Std := none, Min := none,
    Max := none, PlotPDF := "a.pdf" }

/-- Counterexample to C3 as stated: a row whose subtag is outside the five
recognized values is dropped even with every filter at its default, so the
full-tag-set filter does not return the input unchanged. -/
theorem filter_identity_cex : fullFilter [cexRow3] ≠ [cexRow3] := by
  decide

/-- Witness for C3 (amended): the empty-tag filter annihilates, and the
default filter is the identity on a row with a recognized subtag. -/
theorem filter_identity_witness :
    filterPipeline [cexRow]
      { algorithm := "X", tags := [], subtags := ["mp4_low"], search := "q" } = []
  ∧ fullFilter [cexRow] = [cexRow] :=
  ⟨(filter_identity [cexRow] "X" "q" ["mp4_low"]).1,
   (filter_identity [cexRow] "X" "q" ["mp4_low"]).2.2 (by decide)⟩

/-- The order in which pandas `sort_values` ranks the per-group means:
ordinary order on numbers, with NaN (`none`) placed after every number. -/
def leOM : Option ℚ → Option ℚ → Prop
  | _, none => True
  | some a, some b => a ≤ b
  | none, some _ => False

instance : ∀ x y : Option ℚ, Decidable (leOM x y)
  | none, none => isTrue trivial
  | some _, none => isTrue trivial
  | some a, some b => inferInstanceAs (Decidable (a ≤ b))
  | none, some _ => isFalse (fun h => h)

instance : IsTotal (Option ℚ) leOM where
  total x y := by
    cases x <;> cases y <;> simp [leOM]
    exact le_total _ _

instance : IsTrans (Option ℚ) leOM where
  trans x y z hxy hyz := by
    cases x <;> cases y <;> cases z <;> simp_all [leOM]
    exact le_trans hxy hyz

/-- The row order of the summary table: ascending mean RMSE, NaN last. -/
def rmseLe (p q : String × Option ℚ) : Prop := leOM p.2 q.2

instance : DecidableRel rmseLe := fun p q => inferInstanceAs (Decidable (leOM p.2 q.2))

instance : IsTotal (String × Option ℚ) rmseLe where
  total p q := IsTotal.total (r := leOM) p.2 q.2

instance : IsTrans (String × Option ℚ) rmseLe where
  trans p q u hpq hqu := IsTrans.trans (r := leOM) p.2 q.2 u.2 hpq hqu

/-- pandas `Series.mean()` with its default `skipna`: the arithmetic mean
of the values present, NaN (`none`) when there are none. -/
def mean? (l : List ℚ) : Option ℚ :=
  if l = [] then none else some (l.sum / l.length)

/-- The non-null RMSE values of the rows of one algorithm group. -/
def groupRMSEs (rows : List Row) (a : String) : List ℚ :=
  (rows.filter (fun r => r.Algorithm == a)).filterMap (fun r => r.RMSE)

/-- The group keys produced by `groupby("Algorithm")`: the distinct
algorithm names, sorted ascending (pandas groups sort their keys). -/
def algosSorted (rows : List Row) : List String :=
  List.insertionSort (fun a b => a ≤ b) (rows.map (fun r => r.Algorithm)).dedup

/-- Line 84 of `app.py`:
`filtered.groupby("Algorithm")["RMSE"].mean().reset_index().sort_values(by="RMSE")`. -/
def summary_df (rows : List Row) : List (String × Option ℚ) :=
  List.insertionSort rmseLe
    ((algosSorted rows).map (fun a => (a, mean? (groupRMSEs rows a))))

/-- C4.  Aggregation: the summary is sorted ascending by mean RMSE (NaN
last), its rows are exactly the distinct algorithm names of the filtered
set (one row per group), and each row carries the arithmetic mean of that
group's RMSE values with nulls excluded. -/
theorem summary_spec (rows : List Row) :
    List.Sorted rmseLe (summary_df rows)
  ∧ List.Perm ((summary_df rows).map Prod.fst) ((rows.map (fun r => r.Algorithm)).dedup)
  ∧ (∀ p ∈ summary_df rows, p.2 = mean? (groupRMSEs rows p.1)) := by
  refine ⟨List.sorted_insertionSort rmseLe _, ?_, ?_⟩
  · have h1 := (List.perm_insertionSort rmseLe
      ((algosSorted rows).map (fun a => (a, mean? (groupRMSEs rows a))))).map Prod.fst
    rw [List.map_map] at h1
    have h2 : ((fun p : String × Option ℚ => p.1) ∘
        (fun a => (a, mean? (groupRMSEs rows a)))) = id := rfl
    rw [h2, List.map_id] at h1
    exact h1.trans (List.perm_insertionSort _ _)
  · intro p hp
    have hp' : p ∈ (algosSorted rows).map (fun a => (a, mean? (groupRMSEs rows a))) :=
      (List.perm_insertionSort rmseLe _).mem_iff.mp hp
    obtain ⟨a, _, rfl⟩ := List.mem_map.mp hp'
    rfl

/-- Two rows with distinct algorithms and present RMSE values. -/
def wRowA : Row :=
  { Algorithm := "A", Tag := "T", Subtag := some "mp4_low", Video := "v1",
    RMSE := some 2, Mean := none, Median := none, Std := none, Min := none,
    Max := none, PlotPDF := "a.pdf" }

/-- Second summary-witness row. -/
def wRowB : Row :=
  { Algorithm := "B", Tag := "T", Subtag := some "mp4_low", Video := "v2",
    RMSE := some 4, Mean := none, Median := none, Std := none, Min := none,
    Max := none, PlotPDF := "b.pdf" }

/-- A row of algorithm A with a null RMSE. -/
def wRowN : Row :=
  { Algorithm := "A", Tag := "T", Subtag := some "mp4_low", Video := "v3",
    RMSE := none, Mean := none, Median := none, Std := none, Min := none,
    Max := none, PlotPDF := "c.pdf" }

/-- Witness for C4: the concrete one-row summary is sorted and its single
row carries exactly the mean of group A. -/
theorem summary_spec_witness :
    List.Sorted rmseLe (summary_df [wRowA])
  ∧ ("A", mean? (groupRMSEs [wRowA] "A")).2 = mean? (groupRMSEs [wRowA] "A") :=
  ⟨(summary_spec [wRowA]).1,
   (summary_spec [wRowA]).2.2 ("A", mean? (groupRMSEs [wRowA] "A")) (List.Mem.head _)⟩

/-- `mean?` only depends on the multiset of values. -/
theorem mean_congr_perm {l₁ l₂ : List ℚ} (h : List.Perm l₁ l₂) : mean? l₁ = mean? l₂ := by
  unfold mean?
  rcases eq_or_ne l₁ [] with he | he
  · subst he
    rw [h.symm.eq_nil]
  · have he₂ : l₂ ≠ [] := by
      intro e
      apply he
      have hl := h.length_eq
      rw [e] at hl
      exact List.length_eq_zero.mp hl
    rw [if_neg he, if_neg he₂, h.sum_eq, h.length_eq]

/-- Filtering away the null-RMSE rows changes no group's value list. -/
theorem groupRMSEs_filter_isSome (rows : List Row) (a : String) :
    groupRMSEs (rows.filter (fun r => r.RMSE.isSome)) a = groupRMSEs rows a := by
  induction rows with
  | nil => rfl
  | cons r t ih =>
    unfold groupRMSEs at *
    cases hb : r.RMSE <;> cases hc : r.Algorithm == a <;>
      simp [List.filter_cons, hb, hc] at ih ⊢ <;> exact ih

/-- C5.  Aggregation order-invariance: permuting the filtered rows leaves
the summary literally unchanged (group keys are sorted, group means are
multiset functions, and the final value sort is deterministic), and rows
with a null RMSE contribute nothing to any group's mean. -/
theorem summary_perm_invariant (rows₁ rows₂ rows : List Row) :
    (List.Perm rows₁ rows₂ → summary_df rows₁ = summary_df rows₂)
  ∧ (∀ a, mean? (groupRMSEs (rows.filter (fun r => r.RMSE.isSome)) a)
        = mean? (groupRMSEs rows a)) := by
  constructor
  · intro h
    have halgos : algosSorted rows₁ = algosSorted rows₂ := by
      refine List.eq_of_perm_of_sorted ?_ (List.sorted_insertionSort _ _)
        (List.sorted_insertionSort _ _)
      exact (List.perm_insertionSort _ _).trans
        (((h.map (fun r => r.Algorithm)).dedup).trans
          (List.perm_insertionSort _ _).symm)
    have hmean : ∀ a, mean? (groupRMSEs rows₁ a) = mean? (groupRMSEs rows₂ a) := fun a =>
      mean_congr_perm ((h.filter _).filterMap _)
    unfold summary_df
    rw [halgos, List.map_congr_left (fun a _ => by rw [hmean a])]
  · intro a
    rw [groupRMSEs_filter_isSome]

/-- Witness for C5: swapping two concrete rows leaves the summary
unchanged, and dropping the null-RMSE row leaves group A's mean
unchanged. -/
theorem summary_perm_invariant_witness :
    summary_df [wRowA, wRowB] = summary_df [wRowB, wRowA]
  ∧ mean? (groupRMSEs (List.filter (fun r => r.RMSE.isSome) [wRowA, wRowN]) "A")
      = mean? (groupRMSEs [wRowA, wRowN] "A") :=
  ⟨(summary_perm_invariant [wRowA, wRowB] [wRowB, wRowA] []).1
      (List.Perm.swap wRowB wRowA []),
   (summary_perm_invariant [] [] [wRowA, wRowN]).2 "A"⟩

/-- The sort position of a row's subtag: its index in `subtag_order`
(the Categorical code, also the value `subtag_order_map` assigns on line
146), with NaN placed after every recognized value, as pandas sorts it. -/
def subtagKey (r : Row) : Nat :=
  match r.Subtag with
  | some s => subtag_order.indexOf s
  | none => subtag_order.length

/-- Is the row's subtag one of the five recognized categories? -/
def recognizedSubtag (r : Row) : Bool :=
  match r.Subtag with
  | some s => subtag_order.contains s
  | none => false

/-- The comparison `sort_values(by="Subtag")` uses on the ordered
Categorical column (line 109): category code order, NaN last. -/
def subtagLe (a b : Row) : Prop := subtagKey a ≤ subtagKey b

instance : DecidableRel subtagLe := fun a b =>
  inferInstanceAs (Decidable (subtagKey a ≤ subtagKey b))

instance : IsTotal Row subtagLe := ⟨fun a b => Nat.le_total (subtagKey a) (subtagKey b)⟩

instance : IsTrans Row subtagLe := ⟨fun _ _ _ => Nat.le_trans⟩

/-- Line 109: `filtered.sort_values(by="Subtag")`. -/
def sortBySubtag (rows : List Row) : List Row :=
  List.insertionSort subtagLe rows

/-- Lexicographic combination of a linear order with a second
component order. -/
def lexLe {α β : Type} [LinearOrder α] (le2 : β → β → Prop) (p q : α × β) : Prop :=
  p.1 < q.1 ∨ (p.1 = q.1 ∧ le2 p.2 q.2)

theorem lexLe_total {α β : Type} [LinearOrder α] (le2 : β → β → Prop)
    (h : ∀ x y, le2 x y ∨ le2 y x) (p q : α × β) : lexLe le2 p q ∨ lexLe le2 q p := by
  rcases lt_trichotomy p.1 q.1 with hlt | heq | hgt
  · exact Or.inl (Or.inl hlt)
  · rcases h p.2 q.2 with h2 | h2
    · exact Or.inl (Or.inr ⟨heq, h2⟩)
    · exact Or.inr (Or.inr ⟨heq.symm, h2⟩)
  · exact Or.inr (Or.inl hgt)

theorem lexLe_trans {α β : Type} [LinearOrder α] (le2 : β → β → Prop)
    (h : ∀ x y z, le2 x y → le2 y z → le2 x z) (p q u : α × β)
    (hpq : lexLe le2 p q) (hqu : lexLe le2 q u) : lexLe le2 p u := by
  rcases hpq with h1 | ⟨e1, l1⟩
  · rcases hqu with h2 | ⟨e2, l2⟩
    · exact Or.inl (h1.trans h2)
    · exact Or.inl (lt_of_lt_of_eq h1 e2)
  · rcases hqu with h2 | ⟨e2, l2⟩
    · exact Or.inl (lt_of_eq_of_lt e1 h2)
    · exact Or.inr ⟨e1.trans e2, h p.2 q.2 u.2 l1 l2⟩

/-- The sort key of lines 148-150: `["Algorithm", "Tag", "Video",
"SubtagOrder"]`, the last component being the `subtag_order_map` code
with NaN last. -/
def rowKey (r : Row) : String × (String × (String × Nat)) :=
  (r.Algorithm, (r.Tag, (r.Video, subtagKey r)))

/-- The order on the last sort-key component. -/
def natLe (m n : Nat) : Prop := m ≤ n

instance : DecidableRel natLe := fun m n => Nat.decLe m n

/-- Order on the (Video, SubtagOrder) key suffix. -/
def vLe : String × Nat → String × Nat → Prop := lexLe natLe

instance : DecidableRel vLe := fun p q =>
  inferInstanceAs (Decidable (p.1 < q.1 ∨ (p.1 = q.1 ∧ natLe p.2 q.2)))

/-- Order on the (Tag, Video, SubtagOrder) key suffix. -/
def tvLe : String × (String × Nat) → String × (String × Nat) → Prop := lexLe vLe

instance : DecidableRel tvLe := fun p q =>
  inferInstanceAs (Decidable (p.1 < q.1 ∨ (p.1 = q.1 ∧ vLe p.2 q.2)))

/-- Order on the whole sort key. -/
def rkLe : String × (String × (String × Nat)) → String × (String × (String × Nat)) → Prop :=
  lexLe tvLe

instance : DecidableRel rkLe := fun p q =>
  inferInstanceAs (Decidable (p.1 < q.1 ∨ (p.1 = q.1 ∧ tvLe p.2 q.2)))

/-- The lexicographic row comparison of the `sort_values` call on lines
148-150. -/
def rowLe (a b : Row) : Prop :=
  rkLe (rowKey a) (rowKey b)

instance : DecidableRel rowLe := fun a b =>
  inferInstanceAs (Decidable (rkLe (rowKey a) (rowKey b)))

theorem vLe_total (p q : String × Nat) : vLe p q ∨ vLe q p :=
  lexLe_total natLe (fun m n => Nat.le_total m n) p q

theorem tvLe_total (p q : String × (String × Nat)) : tvLe p q ∨ tvLe q p :=
  lexLe_total vLe vLe_total p q

theorem rkLe_total (p q : String × (String × (String × Nat))) : rkLe p q ∨ rkLe q p :=
  lexLe_total tvLe tvLe_total p q

theorem vLe_trans (p q u : String × Nat) : vLe p q → vLe q u → vLe p u :=
  lexLe_trans natLe (fun _ _ _ => Nat.le_trans) p q u

theorem tvLe_trans (p q u : String × (String × Nat)) : tvLe p q → tvLe q u → tvLe p u :=
  lexLe_trans vLe vLe_trans p q u

theorem rkLe_trans (p q u : String × (String × (String × Nat))) :
    rkLe p q → rkLe q u → rkLe p u :=
  lexLe_trans tvLe tvLe_trans p q u

instance : IsTotal Row rowLe := ⟨fun a b => rkLe_total (rowKey a) (rowKey b)⟩

instance : IsTrans Row rowLe :=
  ⟨fun a b c => rkLe_trans (rowKey a) (rowKey b) (rowKey c)⟩

/-- Lines 144-150: the metrics table sorted by Algorithm, Tag, Video and
the subtag code. -/
def sortMulti (rows : List Row) : List Row :=
  List.insertionSort rowLe rows

/-- A row is recognized exactly when its subtag key is below
`subtag_order.length`. -/
theorem recognizedSubtag_iff (r : Row) :
    recognizedSubtag r = true ↔ subtagKey r < subtag_order.length := by
  rcases e : r.Subtag with _ | s
  · simp [recognizedSubtag, subtagKey, e]
  · simp only [recognizedSubtag, subtagKey, e]
    constructor
    · intro h
      exact List.indexOf_lt_length.mpr (by simpa using h)
    · intro h
      by_cases hm : s ∈ subtag_order
      · simpa using hm
      · rw [List.indexOf_of_not_mem hm] at h
        exact absurd h (lt_irrefl _)

/-- In the multi-key sort order, among rows agreeing on Algorithm, Tag
and Video, the comparison reduces to the subtag code. -/
theorem rowLe_subtagKey {a b : Row} (h : rowLe a b) (h1 : a.Algorithm = b.Algorithm)
    (h2 : a.Tag = b.Tag) (h3 : a.Video = b.Video) : subtagKey a ≤ subtagKey b := by
  rcases h with h | ⟨-, h | ⟨-, h | ⟨-, h⟩⟩⟩
  · rw [show (rowKey a).1 = (rowKey b).1 from h1] at h
    exact absurd h (lt_irrefl _)
  · rw [show (rowKey a).2.1 = (rowKey b).2.1 from h2] at h
    exact absurd h (lt_irrefl _)
  · rw [show (rowKey a).2.2.1 = (rowKey b).2.2.1 from h3] at h
    exact absurd h (lt_irrefl _)
  · exact h

/-- A metric record carrying a recognized subtag. -/
def wRec6 : MetricRecord :=
  { Algorithm := "ALG1", Tag := "T", Subtag := "mp4_low", Video := "v",
    RMSE := none, Mean := none, Median := none, Std := none, Min := none,
    Max := none, PlotPDF := "a.pdf" }

/-- C6 (amended).  The subtag categories are the five identically
"mp4_"-prefixed values verylow, low, mid, medium, high, in that order;
after the Categorical conversion every row's subtag is either one of them
or NaN; in the view sorted by Subtag alone (line 109) every row whose
subtag is outside the recognized set comes after all rows with recognized
subtags; in the multi-key view of lines 144-150 this holds among rows
that share Algorithm, Tag and Video (the three keys that rank before the
subtag code). -/
theorem subtag_ordering (r : MetricRecord) (rows : List Row) :
    subtag_order = ["verylow", "low", "mid", "medium", "high"].map (fun s => "mp4_" ++ s)
  ∧ (∀ s, (toRow r).Subtag = some s → s ∈ subtag_order)
  ∧ (sortBySubtag rows).Pairwise
      (fun a b => recognizedSubtag b = true → recognizedSubtag a = true)
  ∧ (sortMulti rows).Pairwise
      (fun a b => a.Algorithm = b.Algorithm → a.Tag = b.Tag → a.Video = b.Video →
        recognizedSubtag b = true → recognizedSubtag a = true) := by
  refine ⟨rfl, ?_, ?_, ?_⟩
  · intro s h
    unfold toRow at h
    by_cases hc : subtag_order.contains r.Subtag
    · simp only [hc, if_true, Option.some.injEq] at h
      subst h
      simpa using hc
    · rw [if_neg hc] at h
      exact absurd h (by simp)
  · refine List.Pairwise.imp ?_ (List.sorted_insertionSort subtagLe rows)
    intro a b hab hrec
    exact (recognizedSubtag_iff a).mpr
      (lt_of_le_of_lt hab ((recognizedSubtag_iff b).mp hrec))
  · refine List.Pairwise.imp ?_ (List.sorted_insertionSort rowLe rows)
    intro a b hab h1 h2 h3 hrec
    exact (recognizedSubtag_iff a).mpr
      (lt_of_le_of_lt (rowLe_subtagKey hab h1 h2 h3) ((recognizedSubtag_iff b).mp hrec))

/-- A row with an unrecognized (NaN) subtag and an early algorithm name. -/
def cexRowA6 : Row :=
  { Algorithm := "A", Tag := "T", Subtag := none, Video := "v",
    RMSE := none, Mean := none, Median := none, Std := none, Min := none,
    Max := none, PlotPDF := "a.pdf" }

/-- A row with a recognized subtag and a later algorithm name. -/
def cexRowB6 : Row :=
  { Algorithm := "B", Tag := "T", Subtag := some "mp4_low", Video := "v",
    RMSE := none, Mean := none, Median := none, Std := none, Min := none,
    Max := none, PlotPDF := "b.pdf" }

/-- Counterexample to C6 as stated: in the multi-key subtag-ordered view
of lines 144-150, a row with an unrecognized subtag but an earlier
algorithm name sorts before a row with a recognized subtag, so an
unrecognized record does not sort after all recognized ones in every
subtag-ordered view. -/
theorem subtag_ordering_cex :
    ¬ ((sortMulti [cexRowB6, cexRowA6]).Pairwise
        (fun a b => recognizedSubtag b = true → recognizedSubtag a = true)) := by
  have hneg : ¬ rowLe cexRowB6 cexRowA6 := by
    intro hcon
    rcases hcon with h | ⟨e, -⟩
    · have : (rowKey cexRowB6).1 < (rowKey cexRowA6).1 := h
      simp [rowKey, cexRowB6, cexRowA6] at this
      exact absurd this (by decide)
    · have : (rowKey cexRowB6).1 = (rowKey cexRowA6).1 := e
      simp [rowKey, cexRowB6, cexRowA6] at this
  have e : sortMulti [cexRowB6, cexRowA6] = [cexRowA6, cexRowB6] := by
    unfold sortMulti
    simp only [List.insertionSort, List.orderedInsert]
    rw [if_neg hneg]
  intro h
  rw [e] at h
  have hP := (List.pairwise_cons.mp h).1 cexRowB6 (by simp)
  have hB : recognizedSubtag cexRowB6 = true := by decide
  have hA : recognizedSubtag cexRowA6 = true := hP hB
  exact absurd hA (by decide)

/-- Witness for C6 (amended): the recognized subtag of a concrete record
survives conversion and lies in the category list. -/
theorem subtag_ordering_witness : "mp4_low" ∈ subtag_order :=
  (subtag_ordering wRec6 []).2.1 "mp4_low" (by decide)

/-- Does the string begin with `/` (Python `startswith('/')`, the
absolute-path test of `os.path.join` and of pathlib's `/`)? -/
def isAbs (s : String) : Bool :=
  match s.toList with
  | [] => false
  | c :: _ => c == '/'

/-- Does the string end with `/`? -/
def endsWithSlash (s : String) : Bool :=
  match s.toList.getLast? with
  | some c => c == '/'
  | none => false

/-- POSIX `os.path.join(a, b)`: an absolute second component replaces the
first; otherwise the components are joined with a single `/` (none added
after an empty or slash-terminated first component). -/
def ospath_join (a b : String) : String :=
  if isAbs b then b
  else if a = "" || endsWithSlash a then a ++ b
  else a ++ "/" ++ b

/-- `get_preview_image` of `app.py` lines 153-159.  The filesystem is
passed explicitly as the list of existing paths; the function only reads
it (a pure existence check — it can create nothing). -/
def get_preview_image (fs : List String) (pdf_file : String) : Option String :=
  let img_file := pdf_file ++ ".png"
  let img_path := ospath_join "plots_previews" img_file
  if fs.contains img_path then some img_path else none

/-- Joining a relative component to the preview directory produces the
slash-separated path. -/
theorem ospath_join_plots (b : String) (h : isAbs b = false) :
    ospath_join "plots_previews" b = "plots_previews/" ++ b := by
  unfold ospath_join
  rw [if_neg (by simp [h]), if_neg (by decide)]
  rfl

/-- C7.  Preview resolution: for a (relative) plot reference `p` the
expected preview is `plots_previews/<p>.png`; when that path exists the
record gets it, otherwise it gets the null "no preview" value.  The check
is pure: the filesystem is an immutable input. -/
theorem preview_spec (fs : List String) (p : String) :
    isAbs (p ++ ".png") = false →
      (fs.contains ("plots_previews/" ++ (p ++ ".png")) = true →
        get_preview_image fs p = some ("plots_previews/" ++ (p ++ ".png")))
    ∧ (fs.contains ("plots_previews/" ++ (p ++ ".png")) = false →
        get_preview_image fs p = none) := by
  intro habs
  simp only [get_preview_image]
  rw [ospath_join_plots _ habs]
  constructor
  · intro hc
    rw [if_pos hc]
  · intro hc
    rw [if_neg (by simpa using hc)]

/-- A filesystem holding exactly the expected preview of `a.pdf`. -/
def wfs7 : List String := ["plots_previews/a.pdf.png"]

/-- Witness for C7: `a.pdf` resolves to `plots_previews/a.pdf.png` when
that file exists, and to no preview on an empty filesystem. -/
theorem preview_spec_witness :
    get_preview_image wfs7 "a.pdf" = some "plots_previews/a.pdf.png"
  ∧ get_preview_image [] "a.pdf" = none :=
  ⟨(preview_spec wfs7 "a.pdf" (by decide)).1 (by decide),
   (preview_spec [] "a.pdf" (by decide)).2 (by decide)⟩

/-- The outcome of one `pdf2image.convert_from_path` call: the list of
rasterized pages (abstract images), or a raised exception with its
message. -/
inductive ConvResult where
  | ok : List Nat → ConvResult
  | err : String → ConvResult
  deriving DecidableEq, Repr

/-- One iteration of the conversion loop (`convert_pdfs_to_pngs.py`
lines 11-21).  `convert` stands for the external rasterizer, called with
the filename, the fixed 150 dpi and first/last page 1; the iteration
yields the written file — the original name plus a `.png` suffix, paired
with the first page — or nothing when the extraction was empty or the
`except` caught an error. -/
def convert_one (convert : String → Nat → Nat → Nat → ConvResult) (pdf_file : String) :
    Option (String × Nat) :=
  match convert pdf_file 150 1 1 with
  | ConvResult.ok (img :: _) => some (pdf_file ++ ".png", img)
  | ConvResult.ok [] => none
  | ConvResult.err _ => none

/-- The line printed by one iteration of the conversion loop. -/
def convert_log (convert : String → Nat → Nat → Nat → ConvResult)
    (pdf_file : String) : String :=
  match convert pdf_file 150 1 1 with
  | ConvResult.ok (_ :: _) => "Converted: " ++ pdf_file
  | ConvResult.ok [] => "No images extracted from " ++ pdf_file
  | ConvResult.err e => "Failed to convert " ++ pdf_file ++ ": " ++ e

/-- Does the filename end in `.pdf` (the `glob("*.pdf")` selection)? -/
def hasPdfExt (f : String) : Bool :=
  litAt ".pdf".toList.reverse f.toList.reverse

/-- The files `pdf_dir.glob("*.pdf")` yields from a directory listing. -/
def pdfFiles (dir : List String) : List String :=
  dir.filter hasPdfExt

/-- The whole conversion batch: the files written to the destination
directory. -/
def runBatch (convert : String → Nat → Nat → Nat → ConvResult)
    (dir : List String) : List (String × Nat) :=
  (pdfFiles dir).filterMap (convert_one convert)

/-- The lines the conversion batch prints, one per PDF file. -/
def runLogs (convert : String → Nat → Nat → Nat → ConvResult)
    (dir : List String) : List String :=
  (pdfFiles dir).map (convert_log convert)

/-- C8.  Offline converter: every `.pdf` file whose conversion yields at
least one page gets its first page written as `<name>.png`, whatever the
converter does on the other files (a failure elsewhere never prevents
it); a failing file's error is caught and its message logged; every
`.pdf` file is processed (one log line each); and the batch output is
permutation-invariant in the processing order. -/
theorem converter_spec (convert : String → Nat → Nat → Nat → ConvResult)
    (dir : List String) (f : String) :
    (f ∈ dir → hasPdfExt f = true →
      ∀ img rest, convert f 150 1 1 = ConvResult.ok (img :: rest) →
        (f ++ ".png", img) ∈ runBatch convert dir)
  ∧ (f ∈ dir → hasPdfExt f = true →
      ∀ e, convert f 150 1 1 = ConvResult.err e →
        ("Failed to convert " ++ f ++ ": " ++ e) ∈ runLogs convert dir)
  ∧ (∀ dir₂, List.Perm dir dir₂ →
      List.Perm (runBatch convert dir) (runBatch convert dir₂))
  ∧ (runLogs convert dir).length = (pdfFiles dir).length := by
  refine ⟨?_, ?_, ?_, ?_⟩
  · intro hf hext img rest hc
    refine List.mem_filterMap.mpr ⟨f, List.mem_filter.mpr ⟨hf, hext⟩, ?_⟩
    simp [convert_one, hc]
  · intro hf hext e hc
    refine List.mem_map.mpr ⟨f, List.mem_filter.mpr ⟨hf, hext⟩, ?_⟩
    simp [convert_log, hc]
  · intro dir₂ h
    exact (h.filter _).filterMap _
  · simp [runLogs]

/-- A converter that fails on `bad.pdf` and yields page 7 elsewhere. -/
def wConv : String → Nat → Nat → Nat → ConvResult := fun name _ _ _ =>
  if name = "bad.pdf" then ConvResult.err "boom" else ConvResult.ok [7]

/-- Witness for C8: with one corrupt file in the directory, the other
file is still converted, the failure is logged, and reversing the
processing order permutes the batch output. -/
theorem converter_spec_witness :
    ("good.pdf" ++ ".png", 7) ∈ runBatch wConv ["bad.pdf", "good.pdf"]
  ∧ ("Failed to convert " ++ "bad.pdf" ++ ": " ++ "boom")
      ∈ runLogs wConv ["bad.pdf", "good.pdf"]
  ∧ List.Perm (runBatch wConv ["bad.pdf", "good.pdf"])
      (runBatch wConv ["good.pdf", "bad.pdf"]) :=
  ⟨(converter_spec wConv ["bad.pdf", "good.pdf"] "good.pdf").1
      (by decide) (by decide) 7 [] (by decide),
   (converter_spec wConv ["bad.pdf", "good.pdf"] "bad.pdf").2.1
      (by decide) (by decide) "boom" (by decide),
   (converter_spec wConv ["bad.pdf", "good.pdf"] "good.pdf").2.2.1
      ["good.pdf", "bad.pdf"] (List.Perm.swap "good.pdf" "bad.pdf" [])⟩

/-- pandas `Series.max()` with `skipna`: the greatest non-null value, NaN
(`none`) when there is none (also when the frame is empty). -/
def colMax (rows : List Row) (metric : Row → Option ℚ) : Option ℚ :=
  match rows.filterMap metric with
  | [] => none
  | x :: xs => some (xs.foldl max x)

/-- pandas `Series.min()` with `skipna`, as on line 142. -/
def colMin (rows : List Row) (metric : Row → Option ℚ) : Option ℚ :=
  match rows.filterMap metric with
  | [] => none
  | x :: xs => some (xs.foldl min x)

/-- The y-range of the bar chart (line 122):
`(0, filtered[metric].max() * 1.1 if not filtered.empty else None)`;
arithmetic on NaN stays NaN. -/
def range_y (rows : List Row) (metric : Row → Option ℚ) : ℚ × Option ℚ :=
  (0, if rows.isEmpty then none
      else (colMax rows metric).map (fun m => m * (11/10)))

/-- C9.  Empty-input tolerance: on an empty filtered set the summary
aggregation, the chart y-range and the RMSE extremes all evaluate (the
embedded functions are total, as the pandas operations are non-raising)
and degrade to the empty summary and null values. -/
theorem empty_input_tolerance :
    summary_df [] = []
  ∧ (∀ metric, range_y [] metric = (0, none))
  ∧ colMax [] (fun r => r.RMSE) = none
  ∧ colMin [] (fun r => r.RMSE) = none :=
  ⟨rfl, fun _ => rfl, rfl, rfl⟩

/-- pathlib's `/` on a non-empty relative directory: an absolute second
component replaces the first, otherwise the components are joined with
`/`. -/
def path_div (a b : String) : String :=
  if isAbs b then b else a ++ "/" ++ b

/-- Line 15 of `convert_pdfs_to_pngs.py`:
`output_dir / (pdf_file.name + ".png")` with `output_dir =
Path("plots_previews")`. -/
def converter_output_path (name : String) : String :=
  path_div "plots_previews" (name ++ ".png")

/-- The path `get_preview_image` checks for plot reference `name`. -/
def preview_lookup_path (name : String) : String :=
  ospath_join "plots_previews" (name ++ ".png")

/-- C10.  Converter/preview naming round-trip: the converter writes the
preview of source file `name` to exactly the path the dashboard looks up
— `plots_previews/<name>.png` for the relative names `glob` yields — and
the output naming map is injective, so distinct source PDFs get distinct
preview filenames. -/
theorem round_trip (name a b : String) :
    converter_output_path name = preview_lookup_path name
  ∧ (isAbs (name ++ ".png") = false →
      converter_output_path name = "plots_previews/" ++ (name ++ ".png"))
  ∧ (a ++ ".png" = b ++ ".png" → a = b) := by
  refine ⟨?_, ?_, ?_⟩
  · unfold converter_output_path preview_lookup_path path_div ospath_join
    by_cases h : isAbs (name ++ ".png") = true
    · rw [if_pos h, if_pos h]
    · rw [if_neg h, if_neg h, if_neg (by decide)]
  · intro habs
    unfold converter_output_path path_div
    rw [if_neg (by simp [habs]),
      show ("plots_previews" ++ "/" : String) = "plots_previews/" from rfl]
  · intro h
    exact String.ext (List.append_cancel_right (congrArg String.data h))

/-- Witness for C10: source `N.pdf` is written to and looked up at
`plots_previews/N.pdf.png`. -/
theorem round_trip_witness :
    converter_output_path "N.pdf" = preview_lookup_path "N.pdf"
  ∧ converter_output_path "N.pdf" = "plots_previews/N.pdf.png"
  ∧ "N" = "N" :=
  ⟨(round_trip "N.pdf" "N" "N").1,
   (round_trip "N.pdf" "N" "N").2.1 (by decide),
   (round_trip "N.pdf" "N" "N").2.2 rfl⟩

end CVDash
